import Mathlib

/-!
Shallow embedding of the Kachifo trend-discovery service
(`src/app.py`, `src/api_integrations.py`) and proofs about the
specification claims.

External effects are made explicit:
* HTTP provider adapters become function parameters `String → List RawItem`;
* the Hugging Face enrichment service becomes an
  `Option (String → Except Unit HFResponse)` parameter (`none` models an
  uninitialized client, `Except.error` models a raised exception);
* TTL caches become association lists (an entry being present models
  "present and within its TTL");
* Python exceptions that a function catches internally are modelled by the
  `Except`-valued service parameter, so the embedded functions are total,
  mirroring the source's catch-all handlers.
-/

namespace Kachifo

/-- The apostrophe character, used inside several message literals. -/
def ap : String := String.mk [Char.ofNat 39]

/-! ## Word-boundary keyword matching (embedding of the `re` patterns)

`classify_input_type` in `src/app.py` matches alternations of literal
keywords wrapped in `\b ... \b` with `re.IGNORECASE`.  We embed this as:
lowercase the text, and look for an occurrence of the (lowercase) literal
whose neighbouring characters are not word characters (`\w` = alphanumeric
or underscore). -/

/-- Python `\w` for ASCII text: alphanumeric or underscore. -/
def isWordChar (c : Char) : Bool := c.isAlphanum || c == '_'

/-- Does pattern `p` occur in text `t` at position `i`, with a word
boundary on each side (as `\b p \b` requires)? -/
def occursWithBoundaries (t p : List Char) (i : Nat) : Bool :=
  decide ((t.drop i).take p.length = p) &&
  (i == 0 || !isWordChar (t.getD (i - 1) ' ')) &&
  (decide (t.length ≤ i + p.length) || !isWordChar (t.getD (i + p.length) ' '))

/-- Case-insensitive word-boundary search of a literal keyword in a text,
the embedding of `re.search(r"\b(...)\b", text, re.IGNORECASE)` for one
alternative. -/
def wordMatch (text pat : String) : Bool :=
  let t := text.toList.map Char.toLower
  let p := pat.toList
  (List.range (t.length + 1)).any (fun i => occursWithBoundaries t p i)

/-- A keyword alternation group matches if any alternative matches. -/
def groupMatch (pats : List String) (text : String) : Bool :=
  pats.any (fun p => wordMatch text p)

/-- `query_pattern` of `classify_input_type` (src/app.py). -/
def queryKeywords : List String :=
  ["search", "find", "look up", "what is", "tell me about", "trending",
   "give me", "show me", "discover", "explore", "list", "popular", "top", "best"]

/-- `analysis_pattern` of `classify_input_type` (src/app.py). -/
def analysisKeywords : List String :=
  ["analyze", "analysis", "evaluate", "review", "compare", "summarize",
   "insights", "opinion", "thoughts on", "perspective", "breakdown",
   "assessment", "critique", "examine", "study"]

/-- `web_search_pattern` of `classify_input_type` (src/app.py). -/
def webSearchKeywords : List String :=
  ["web search", "google", "search online", "current", "latest", "today",
   "live", "news", "recent", "internet", "web", "online", "right now",
   "up to date", "real time"]

/-- `topic_patterns["tech"]` (src/app.py); `AI` lowercased since matching
is case-insensitive. -/
def techKeywords : List String :=
  ["technology", "tech", "ai", "artificial intelligence", "programming",
   "software", "hardware", "digital", "computer", "app", "application"]

/-- `topic_patterns["business"]` (src/app.py). -/
def businessKeywords : List String :=
  ["business", "finance", "company", "market", "stock", "investment",
   "economy", "industry", "startup", "entrepreneur"]

/-- `topic_patterns["health"]` (src/app.py). -/
def healthKeywords : List String :=
  ["health", "medical", "wellness", "nutrition", "fitness", "diet",
   "exercise", "doctor", "hospital", "treatment", "therapy"]

/-- `topic_patterns["entertainment"]` (src/app.py). -/
def entertainmentKeywords : List String :=
  ["movie", "film", "tv", "television", "show", "series", "music", "song",
   "artist", "celebrity", "entertainment"]

/-- Any of the four topic-domain groups matches (the loop
`for topic, pattern in topic_patterns.items()` returns `query` on the
first hit, so only the disjunction matters). -/
def topicMatch (input : String) : Bool :=
  groupMatch techKeywords input || groupMatch businessKeywords input ||
  groupMatch healthKeywords input || groupMatch entertainmentKeywords input

/-- `classify_input_type(user_input)` from src/app.py for the case with no
follow-up context (`conversation_history` absent or shorter than 2), i.e.
the ordered keyword-group cascade:
empty input → conversation; topic-domain keywords → query;
web-search keywords → web_search; analysis keywords → analysis;
generic search verbs → query; otherwise conversation. -/
def classify_input_type (input : String) : String :=
  if input = "" then "conversation"
  else if topicMatch input then "query"
  else if groupMatch webSearchKeywords input then "web_search"
  else if groupMatch analysisKeywords input then "analysis"
  else if groupMatch queryKeywords input then "query"
  else "conversation"

/-! ## Input sanitization (`sanitize_input`, src/app.py) -/

/-- A character kept by `re.sub(r"[^\w\s]", "", query)`: word character or
whitespace. -/
def keepChar (c : Char) : Bool := isWordChar c || c.isWhitespace

/-- Python `str.strip()` on a character list: drop leading and trailing
whitespace. -/
def trimChars (l : List Char) : List Char :=
  ((l.dropWhile Char.isWhitespace).reverse.dropWhile Char.isWhitespace).reverse

/-- `sanitize_input(query)` from src/app.py: empty input passes through;
otherwise delete every character that is neither a word character nor
whitespace, then strip leading/trailing whitespace. -/
def sanitize_input (query : String) : String :=
  if query = "" then ""
  else String.mk (trimChars (query.toList.filter keepChar))

/-! ## Enrichment service responses (`src/api_integrations.py`)

The Hugging Face `summarization` call can return a `str`, a `dict`
(possibly carrying a `summary_text` key), or another object; the source
inspects the result with `isinstance`.  `rother b s` models a non-str,
non-dict response whose Python truthiness is `b` and whose `str(...)`
rendering is `s`. -/

inductive HFResponse where
  | rstr (s : String)
  | rdict (summaryText : Option String)
  | rother (isTruthy : Bool) (asString : String)
deriving DecidableEq

/-- The response-shape dispatch shared by `generate_general_summary` and
`summarize_with_hf`:
`str` → returned as is; `dict` → `get("summary_text", "No summary available")`;
otherwise `str(response) if response else "No summary available"`. -/
def responseToSummary : HFResponse → String
  | HFResponse.rstr s => s
  | HFResponse.rdict (some t) => t
  | HFResponse.rdict none => "No summary available"
  | HFResponse.rother true s => s
  | HFResponse.rother false _ => "No summary available"

/-- Error message of the `except` branch of `generate_general_summary`. -/
def generalSummaryFailMsg : String :=
  "Sorry, I couldn" ++ ap ++ "t generate a summary at the moment."

/-- `generate_general_summary(individual_summaries)` from
src/api_integrations.py.  `svc` is the `inference_summary` client:
`none` models an uninitialized client, `Except.error` a raised exception
(caught by the source and turned into a fixed message). -/
def generate_general_summary (svc : Option (String → Except Unit HFResponse))
    (individual_summaries : List String) : String :=
  if individual_summaries.isEmpty then "No information available to summarize."
  else
    let combined_text := String.intercalate " " individual_summaries
    match svc with
    | none => "Summary service unavailable at the moment."
    | some f =>
      match f combined_text with
      | Except.ok response => responseToSummary response
      | Except.error _ => generalSummaryFailMsg

/-- `summarize_with_hf(text)` from src/api_integrations.py.  The summary
cache (`summary_cache`, keyed by the full text) is passed and returned
explicitly; an entry being present models a cache hit within its TTL.
The input is truncated to `max_input_length = 1024` characters before the
service call; only a successful call stores into the cache. -/
def summarize_with_hf (svc : Option (String → Except Unit HFResponse))
    (cache : List (String × String)) (text : String) :
    String × List (String × String) :=
  if text = "" then ("No content to summarize.", cache)
  else
    match cache.lookup text with
    | some cached => (cached, cache)
    | none =>
      let truncated_text := text.take 1024
      match svc with
      | none => ("Summarization service unavailable at the moment.", cache)
      | some f =>
        match f truncated_text with
        | Except.ok response =>
          let summary := responseToSummary response
          (summary, (text, summary) :: cache)
        | Except.error _ =>
          ("Sorry, summarization is unavailable at the moment.", cache)

/-! ## `retry_with_backoff` (src/api_integrations.py)

The decorator keeps `_tries, _delay = tries, delay`; while `_tries > 1` it
calls the function, and on an exception sleeps `_delay`, decrements
`_tries` and multiplies `_delay` by `backoff`; when the loop exits it
calls the function one final, unguarded time (whose exception
propagates).  The embedding returns the final outcome, the number of
calls made, and the list of sleep durations in order. -/

def retryGo {ε α : Type} (f : Nat → Except ε α) (attempt tries delay backoff : Nat)
    (sleeps : List Nat) : Except ε α × Nat × List Nat :=
  match tries with
  | 0 => (f attempt, attempt + 1, sleeps)
  | 1 => (f attempt, attempt + 1, sleeps)
  | t + 2 =>
    match f attempt with
    | Except.ok a => (Except.ok a, attempt + 1, sleeps)
    | Except.error _ =>
      retryGo f (attempt + 1) (t + 1) (delay * backoff) backoff (sleeps ++ [delay])

/-- `retry_with_backoff(exceptions, tries, delay, backoff)` applied to a
call `f` (indexed by attempt number, so distinct attempts can fail with
distinct errors).  Defaults in the source: `tries=3, delay=2, backoff=2`. -/
def retry_with_backoff {ε α : Type} (f : Nat → Except ε α)
    (tries delay backoff : Nat) : Except ε α × Nat × List Nat :=
  retryGo f 0 tries delay backoff []

/-! ## Aggregation (`fetch_trending_topics`, src/api_integrations.py) -/

/-- One provider result as mapped into the common schema by the four
adapters (`fetch_youtube_trends`, `fetch_reddit_trends`,
`fetch_google_trends`, `fetch_news_articles`). -/
structure RawItem where
  title : String
  url : String
  summary : String
  source : String
deriving DecidableEq

/-- `fetch_trending_topics(query)` from src/api_integrations.py.  The four
provider adapters are parameters (they perform HTTP in the source).  The
second component records, in call order, which providers were invoked:
the source returns `[]` before any adapter call when the query is empty,
and otherwise calls the four adapters in the fixed order YouTube, Reddit,
Google, NewsAPI and concatenates their results in that order. -/
def fetch_trending_topics (yt rd gg nw : String → List RawItem)
    (query : String) : List RawItem × List String :=
  if query = "" then ([], [])
  else (yt query ++ rd query ++ gg query ++ nw query,
        ["YouTube", "Reddit", "Google", "NewsAPI"])

/-! ## Conversation history (src/app.py) -/

/-- One conversation turn (`{'role': ..., 'content': ...}`). -/
structure Turn where
  role : String
  content : String
deriving DecidableEq

/-- The fixed system turn seeded by `get_conversation_history`. -/
def systemTurn : Turn :=
  { role := "system",
    content := "You are Kachifo, a helpful AI assistant specialized in discovering and analyzing trends. Always refer to yourself as Kachifo." }

/-- `history.pop(1)`: remove the element at index 1 (the oldest
non-system message), keeping index 0. -/
def popSecond : List Turn → List Turn
  | x :: _ :: rest => x :: rest
  | l => l

/-- `update_conversation_history(session_id, role, content)` from
src/app.py, acting on the history list of one session: append the new
turn, then, if the length exceeds 11 (1 system turn + 10 messages), evict
the oldest non-system turn. -/
def update_conversation_history (history : List Turn) (t : Turn) : List Turn :=
  let h2 := history ++ [t]
  if h2.length > 11 then popSecond h2 else h2

/-- `clear_history` (src/app.py) on one session's history: keep only the
system message at index 0 (histories are always seeded non-empty by
`get_conversation_history`). -/
def clear_history (history : List Turn) : List Turn :=
  match history with
  | [] => []
  | x :: _ => [x]

/-! ## Rate limiting and the `/interact` endpoint (src/app.py)

`rate_limit` keeps one counter per client in the Flask cache: absent →
initialize to 60 and fall through (storing 59 after the decrement);
`<= 0` → reject with HTTP 429 before calling the handler; otherwise
decrement and call the handler.  `interact` increments the module-level
`daily_usage_count` at the top of its body and is the only writer; no code
path reads it except the `/stats` endpoint.  The embedding tracks the
counter of one fixed client plus the global `daily_usage_count`, and
reports whether the handler body ran (`true` = request served) together
with the number of downstream provider/enrichment invocations started
(`1` abstracts "the handler body ran and did its work", `0` = rejected
before any work). -/

structure ServerState where
  remaining : Option Nat
  dailyUsage : Nat
deriving DecidableEq

/-- One request through `rate_limit`-wrapped `interact`:
returns (new state, handler ran?, downstream work units started). -/
def interactCall (s : ServerState) : ServerState × Bool × Nat :=
  match s.remaining with
  | none => ({ remaining := some 59, dailyUsage := s.dailyUsage + 1 }, true, 1)
  | some r =>
    if r = 0 then (s, false, 0)
    else ({ remaining := some (r - 1), dailyUsage := s.dailyUsage + 1 }, true, 1)

/-- Run `n` consecutive requests from one client, collecting for each the
(handler ran?, downstream work) outcome in order. -/
def runCalls : Nat → ServerState → ServerState × List (Bool × Nat)
  | 0, s => (s, [])
  | n + 1, s =>
    let step := interactCall s
    let rest := runCalls n step.1
    (rest.1, step.2 :: rest.2)

/-! ## The search pipeline (`process_search_query`, src/app.py) -/

/-- One entry of the `results` list built by `process_search_query`. -/
structure ProcessedResult where
  source : String
  title : String
  summary : String
  url : String
deriving DecidableEq

/-- The response dictionary built by `process_search_query` (the constant
`type` field and the pass-through `session_id` are omitted; the embedding
is at `session_id = None`, where no conversation-history update occurs). -/
structure SearchResponse where
  query : String
  results : List ProcessedResult
  general_summary : String
deriving DecidableEq

/-- `process_search_query(query)` from src/app.py at `session_id = None`.
`summ` is `summarize_with_hf` (deterministic given its caches), `gsvc`
the `inference_summary` client used by `generate_general_summary`.  The
Flask cache for `search_query:*` keys is an explicit association list;
the third component counts provider adapter calls issued by this
invocation (via `fetch_trending_topics`). -/
def process_search_query (yt rd gg nw : String → List RawItem)
    (summ : String → String) (gsvc : Option (String → Except Unit HFResponse))
    (cache : List (String × SearchResponse)) (query : String) :
    SearchResponse × List (String × SearchResponse) × Nat :=
  let cache_key := "search_query:" ++ query
  match cache.lookup cache_key with
  | some cached => (cached, cache, 0)
  | none =>
    let fetched := fetch_trending_topics yt rd gg nw query
    let pairs := fetched.1.map (fun r => (r, summ (r.title ++ " " ++ r.summary)))
    let individual_summaries := pairs.map (fun p => p.2)
    let processed_results := pairs.map (fun p =>
      ProcessedResult.mk p.1.source p.1.title p.2 p.1.url)
    let general_summary := generate_general_summary gsvc individual_summaries
    let personalized_summary :=
      "Here" ++ ap ++ "s what I found about " ++ ap ++ query ++ ap ++ ":\n\n" ++
      general_summary
    let resp : SearchResponse := ⟨query, processed_results, personalized_summary⟩
    (resp, (cache_key, resp) :: cache, fetched.2.length)

/-- The `/search` endpoint handler `search_trends` (src/app.py) at
`session_id = None`: reject an empty query (`none` models the HTTP 400
error response), otherwise sanitize the query and hand it to
`process_search_query`. -/
def search_trends (yt rd gg nw : String → List RawItem)
    (summ : String → String) (gsvc : Option (String → Except Unit HFResponse))
    (cache : List (String × SearchResponse)) (query : String) :
    Option (SearchResponse × List (String × SearchResponse) × Nat) :=
  if query = "" then none
  else some (process_search_query yt rd gg nw summ gsvc cache (sanitize_input query))

/-! ## Theorems -/

/-- C10: for the empty query string, `fetch_trending_topics` returns the
empty list and invokes no provider adapter (no YouTube, Reddit, Google,
or news fetch is attempted), whatever the adapters would return. -/
theorem C10_empty_query_no_providers (yt rd gg nw : String → List RawItem) :
    fetch_trending_topics yt rd gg nw "" = ([], []) := rfl

/-- C1 counterexample: the claim says no two items in the aggregated
result share a url.  With the YouTube and Google adapters each
contributing an item with url `https://a.com/x` (the spec's own
duplicate-url scenario), the aggregated list contains that url twice:
`fetch_trending_topics` performs no deduplication. -/
theorem C1_dup_url_counterexample :
    ((fetch_trending_topics
        (fun _ => [RawItem.mk "t1" "https://a.com/x" "s1" "YouTube"])
        (fun _ => [])
        (fun _ => [RawItem.mk "t2" "https://a.com/x" "s2" "Google"])
        (fun _ => [])
        "electric vehicles").1.countP
      (fun it => it.url == "https://a.com/x")) = 2 := by decide

/-- C1 amended: for a non-empty query, `fetch_trending_topics` returns
exactly the concatenation of the four providers' results in the fixed
order YouTube, Reddit, Google, NewsAPI (intra-provider order preserved);
no URL deduplication and no cap are applied, so an item whose url also
occurs in another provider's contribution appears again. -/
theorem C1_concat_in_provider_order (yt rd gg nw : String → List RawItem)
    (q : String) (hq : q ≠ "") :
    (fetch_trending_topics yt rd gg nw q).1 = yt q ++ rd q ++ gg q ++ nw q := by
  simp [fetch_trending_topics, hq]

/-- Witness for `C1_concat_in_provider_order` at a concrete query and
concrete adapters. -/
theorem C1_concat_witness :
    (fetch_trending_topics
        (fun _ => [RawItem.mk "a" "u1" "s" "YouTube"])
        (fun _ => [RawItem.mk "b" "u2" "s" "Reddit"])
        (fun _ => [])
        (fun _ => [RawItem.mk "c" "u1" "s" "NewsAPI"])
        "ev").1 =
      [RawItem.mk "a" "u1" "s" "YouTube"] ++ [RawItem.mk "b" "u2" "s" "Reddit"] ++
      [] ++ [RawItem.mk "c" "u1" "s" "NewsAPI"] :=
  C1_concat_in_provider_order _ _ _ _ "ev" (by decide)

/-- C2 counterexample: the claim says that once the global daily cap
(50–70 per day per the spec) is reached, the next request is rejected
with zero downstream calls.  With the per-client counter at 59 remaining
and `daily_usage_count` already at 70 (and likewise at 1000000), the next
request is still served and performs its downstream work: no code path
reads `daily_usage_count` to reject a request. -/
theorem C2_no_global_cap_counterexample :
    (interactCall ⟨some 59, 70⟩).2.1 = true ∧
    (interactCall ⟨some 59, 70⟩).2.2 = 1 ∧
    (interactCall ⟨some 59, 1000000⟩).2.1 = true := by decide

/-- C2 amended: the per-client hourly counter (60 requests/window,
checked by the `rate_limit` decorator before the handler body runs) is
the only enforced quota: starting from a fresh window, the first 60
requests are served (each performing downstream work), and the 61st is
rejected immediately with zero downstream provider or enrichment calls
and no change to any counter.  There is no enforced global daily cap:
`daily_usage_count` is a statistics counter that never causes rejection,
as the second conjunct shows for an arbitrary value `d`. -/
theorem C2_per_client_quota (d : Nat) :
    runCalls 61 ⟨none, 0⟩ =
      (⟨some 0, 60⟩, List.replicate 60 (true, 1) ++ [(false, 0)]) ∧
    interactCall ⟨some 59, d⟩ = (⟨some 58, d + 1⟩, true, 1) := by
  constructor
  · decide
  · rfl

/-- C5: with the defaults (`tries=3, delay=2, backoff=2`), a wrapped call
that fails on every attempt is invoked exactly 3 times, the sleeps
between attempts are 2s then 4s (exponential backoff), and the error of
the final (third) attempt is propagated to the caller. -/
theorem C5_retry_three_calls {ε α : Type} (f : Nat → Except ε α) (errs : Nat → ε)
    (hf : ∀ n, f n = Except.error (errs n)) :
    retry_with_backoff f 3 2 2 = (Except.error (errs 2), 3, [2, 4]) := by
  show retryGo f 0 3 2 2 [] = _
  rw [retryGo, hf 0]
  rw [retryGo, hf 1]
  rw [retryGo, hf 2]
  rfl

/-- Witness for `C5_retry_three_calls`: the always-failing call whose
attempt `n` fails with error `n`; the propagated error is that of the
final attempt (index 2). -/
theorem C5_retry_witness :
    retry_with_backoff (fun n => (Except.error n : Except Nat Unit)) 3 2 2 =
      (Except.error 2, 3, [2, 4]) :=
  C5_retry_three_calls _ (fun n => n) (fun _ => rfl)

/-- C8 counterexample: the claim says `generate_general_summary` returns
a non-empty string for every list of summaries.  If the summarization
service succeeds but returns the empty string, the source returns that
string verbatim (`isinstance(response, str)` branch), so the composer
output is empty. -/
theorem C8_empty_summary_counterexample :
    generate_general_summary (some (fun _ => Except.ok (HFResponse.rstr ""))) ["a"]
      = "" := rfl

/-- C8 amended: for zero inputs `generate_general_summary` returns the
explicit message `No information available to summarize.`; when the
summarization client is uninitialized, or the service call raises, it
returns a fixed non-empty fallback string rather than raising; only a
successful service reply is returned verbatim (and can then be empty
exactly when the service returns an empty summary). -/
theorem C8_composer_fallbacks (svc : Option (String → Except Unit HFResponse))
    (f : String → Except Unit HFResponse) (ss : List String) (hne : ss ≠ [])
    (hf : f (String.intercalate " " ss) = Except.error ()) :
    generate_general_summary svc [] = "No information available to summarize." ∧
    generate_general_summary none ss = "Summary service unavailable at the moment." ∧
    generate_general_summary (some f) ss = generalSummaryFailMsg ∧
    generate_general_summary svc [] ≠ "" ∧
    generate_general_summary none ss ≠ "" ∧
    generalSummaryFailMsg ≠ "" := by
  have hne' : ss.isEmpty = false := by
    cases ss with
    | nil => exact absurd rfl hne
    | cons a l => rfl
  refine ⟨?_, ?_, ?_, ?_, ?_, by decide⟩ <;>
    simp [generate_general_summary, hne', hf]

/-- Witness for `C8_composer_fallbacks` at a concrete failing service and
a concrete one-element summary list. -/
theorem C8_composer_witness :
    generate_general_summary none [] = "No information available to summarize." ∧
    generate_general_summary none ["a"] = "Summary service unavailable at the moment." ∧
    generate_general_summary (some (fun _ => Except.error ())) ["a"] = generalSummaryFailMsg ∧
    generate_general_summary none [] ≠ "" ∧
    generate_general_summary none ["a"] ≠ "" ∧
    generalSummaryFailMsg ≠ "" :=
  C8_composer_fallbacks none (fun _ => Except.error ()) ["a"] (by decide) rfl

/-- C3 counterexample: the claim says the failure fallback of
`summarize_with_hf` equals the first ~200 characters of the raw input.
For the 300-character input `aaa…a` with an always-failing service, the
result is the fixed message `Sorry, summarization is unavailable at the
moment.` — a string that is not made of `a`s, hence not a truncation of
the input at any length. -/
theorem C3_fallback_counterexample :
    (summarize_with_hf (some (fun _ => Except.error ())) []
        (String.mk (List.replicate 300 'a'))).1 =
      "Sorry, summarization is unavailable at the moment." ∧
    ("Sorry, summarization is unavailable at the moment.".toList.all
        (fun c => c == 'a')) = false := by decide

/-- C3 amended: when the enrichment call fails (service raises) the
summary produced by `summarize_with_hf` is the fixed non-empty message
`Sorry, summarization is unavailable at the moment.` (and
`Summarization service unavailable at the moment.` when the client is
uninitialized), not a truncation of the input; the input is truncated to
its first 1024 characters before the call, the failure-path summary is
never empty, and a failed call stores nothing in the summary cache. -/
theorem C3_failure_fixed_message (cache : List (String × String)) (t : String)
    (f : String → Except Unit HFResponse) (ht : t ≠ "")
    (hm : cache.lookup t = none) (hf : f (t.take 1024) = Except.error ()) :
    (summarize_with_hf (some f) cache t).1 =
      "Sorry, summarization is unavailable at the moment." ∧
    (summarize_with_hf none cache t).1 =
      "Summarization service unavailable at the moment." ∧
    (summarize_with_hf (some f) cache t).1 ≠ "" ∧
    (summarize_with_hf none cache t).1 ≠ "" ∧
    (summarize_with_hf (some f) cache t).2 = cache := by
  refine ⟨?_, ?_, ?_, ?_, ?_⟩ <;>
    simp [summarize_with_hf, ht, hm, hf]

/-- Witness for `C3_failure_fixed_message` at a concrete input, empty
cache and an always-failing service. -/
theorem C3_failure_witness :
    (summarize_with_hf (some (fun _ => Except.error ())) [] "abc").1 =
      "Sorry, summarization is unavailable at the moment." ∧
    (summarize_with_hf none [] "abc").1 =
      "Summarization service unavailable at the moment." ∧
    (summarize_with_hf (some (fun _ => Except.error ())) [] "abc").1 ≠ "" ∧
    (summarize_with_hf none [] "abc").1 ≠ "" ∧
    (summarize_with_hf (some (fun _ => Except.error ())) [] "abc").2 = [] :=
  C3_failure_fixed_message [] "abc" (fun _ => Except.error ()) (by decide) rfl rfl

/-- `history.pop(1)` shortens a list with at least two elements by one. -/
theorem popSecond_length (l : List Turn) (h : 2 ≤ l.length) :
    (popSecond l).length = l.length - 1 := by
  match l with
  | [] => simp at h
  | [a] => simp at h
  | a :: b :: rest => simp [popSecond]

/-- One append to a history of at most 11 turns yields
`min (length + 1) 11` turns: below the cap the history grows, at the cap
the oldest non-system turn is evicted. -/
theorem update_length (h : List Turn) (t : Turn) (hle : h.length ≤ 11) :
    (update_conversation_history h t).length = min (h.length + 1) 11 := by
  unfold update_conversation_history
  by_cases hgt : (h ++ [t]).length > 11
  · rw [if_pos hgt, popSecond_length _ (by simp at hgt ⊢; omega)]
    simp at hgt ⊢
    omega
  · rw [if_neg hgt]
    simp at hgt ⊢
    omega

/-- One append never changes the head of a non-empty history: the system
turn at index 0 survives (`pop(1)` removes index 1, not index 0). -/
theorem update_head (h : List Turn) (t : Turn) (hne : h ≠ []) :
    (update_conversation_history h t).head? = h.head? := by
  match h with
  | [] => exact absurd rfl hne
  | x :: r =>
    unfold update_conversation_history
    obtain ⟨y, r2, hr⟩ : ∃ y r2, r ++ [t] = y :: r2 := by
      cases r with
      | nil => exact ⟨t, [], rfl⟩
      | cons a r2 => exact ⟨a, r2 ++ [t], rfl⟩
    by_cases hgt : ((x :: r) ++ [t]).length > 11
    · rw [if_pos hgt]
      rw [List.cons_append, hr]
      simp [popSecond]
    · rw [if_neg hgt]
      simp

/-- A sequence of appends never changes the head of a non-empty history. -/
theorem foldl_update_head (ts : List Turn) (h : List Turn) (hne : h ≠ []) :
    (ts.foldl update_conversation_history h).head? = h.head? := by
  induction ts generalizing h with
  | nil => rfl
  | cons t ts ih =>
    rw [List.foldl_cons]
    have hh := update_head h t hne
    have h1 : update_conversation_history h t ≠ [] := by
      intro hcontra
      rw [hcontra] at hh
      cases h with
      | nil => exact hne rfl
      | cons a r => simp at hh
    rw [ih _ h1, hh]

/-- Length of the history after a sequence of appends from a non-empty
history within the cap: growth is linear until the cap of 11 is reached,
then the length stays at 11. -/
theorem foldl_update_length (ts : List Turn) (h : List Turn)
    (h1 : 1 ≤ h.length) (h11 : h.length ≤ 11) :
    (ts.foldl update_conversation_history h).length = min (h.length + ts.length) 11 := by
  induction ts generalizing h with
  | nil => simp; omega
  | cons t ts ih =>
    rw [List.foldl_cons, ih (update_conversation_history h t)
      (by rw [update_length h t h11]; omega)
      (by rw [update_length h t h11]; omega)]
    rw [update_length h t h11]
    simp only [List.length_cons]
    omega

/-- C4: the system turn at index 0 is never evicted.  Appending 15
(= cap + 5) turns to a fresh session (seeded `[systemTurn]`) leaves a
history of exactly 11 (= cap + 1, i.e. the system turn plus the 10-turn
cap) whose index 0 is still the system turn, `clear_history` on that
session keeps exactly the system turn, and a single append to any
non-empty history never changes index 0. -/
theorem C4_system_turn_preserved (ts : List Turn) (hts : ts.length = 15)
    (h : List Turn) (t : Turn) (hne : h ≠ []) :
    (ts.foldl update_conversation_history [systemTurn]).length = 11 ∧
    (ts.foldl update_conversation_history [systemTurn]).head? = some systemTurn ∧
    clear_history (ts.foldl update_conversation_history [systemTurn]) = [systemTurn] ∧
    (update_conversation_history h t).head? = h.head? := by
  have hlen := foldl_update_length ts [systemTurn] (by simp) (by simp)
  have hhead := foldl_update_head ts [systemTurn] (by simp)
  refine ⟨?_, ?_, ?_, update_head h t hne⟩
  · rw [hlen, hts]; decide
  · rw [hhead]; rfl
  · cases hfin : ts.foldl update_conversation_history [systemTurn] with
    | nil => rw [hfin] at hhead; simp at hhead
    | cons a r =>
      rw [hfin] at hhead
      simp at hhead
      simp [clear_history, hhead]

/-- Witness for `C4_system_turn_preserved`: 15 concrete user turns
appended to a fresh session. -/
theorem C4_system_turn_witness :
    ((List.replicate 15 (Turn.mk "user" "m")).foldl update_conversation_history
        [systemTurn]).length = 11 ∧
    ((List.replicate 15 (Turn.mk "user" "m")).foldl update_conversation_history
        [systemTurn]).head? = some systemTurn ∧
    clear_history ((List.replicate 15 (Turn.mk "user" "m")).foldl
        update_conversation_history [systemTurn]) = [systemTurn] ∧
    (update_conversation_history [systemTurn] (Turn.mk "user" "x")).head? =
      [systemTurn].head? :=
  C4_system_turn_preserved (List.replicate 15 (Turn.mk "user" "m")) (by simp)
    [systemTurn] (Turn.mk "user" "x") (by simp)

/-- C7: with no follow-up context, `classify_input_type` applies the
keyword groups in a fixed priority order: topic-domain keywords imply
`query` (even when web-search or analysis keywords are also present),
then web-search keywords imply `web_search`, then analysis keywords imply
`analysis`, then generic search verbs imply `query`, and text matching no
group classifies as `conversation`.  Determinism is inherent: the
classifier is a function of the input text. -/
theorem C7_classifier_priority (s : String) :
    (topicMatch s = true → classify_input_type s = "query") ∧
    (topicMatch s = false → groupMatch webSearchKeywords s = true →
      classify_input_type s = "web_search") ∧
    (topicMatch s = false → groupMatch webSearchKeywords s = false →
      groupMatch analysisKeywords s = true → classify_input_type s = "analysis") ∧
    (topicMatch s = false → groupMatch webSearchKeywords s = false →
      groupMatch analysisKeywords s = false → groupMatch queryKeywords s = true →
      classify_input_type s = "query") ∧
    (topicMatch s = false → groupMatch webSearchKeywords s = false →
      groupMatch analysisKeywords s = false → groupMatch queryKeywords s = false →
      classify_input_type s = "conversation") := by
  by_cases hs : s = ""
  · subst hs
    exact ⟨fun h => absurd h (by decide),
           fun _ h => absurd h (by decide),
           fun _ _ h => absurd h (by decide),
           fun _ _ _ h => absurd h (by decide),
           fun _ _ _ _ => rfl⟩
  · unfold classify_input_type
    rw [if_neg hs]
    refine ⟨fun h1 => by simp [h1],
            fun h1 h2 => by simp [h1, h2],
            fun h1 h2 h3 => by simp [h1, h2, h3],
            fun h1 h2 h3 h4 => by simp [h1, h2, h3, h4],
            fun h1 h2 h3 h4 => by simp [h1, h2, h3, h4]⟩

/-- Witness for `C7_classifier_priority`: the input
`analyze the latest technology` matches a topic-domain keyword
(`technology`), a web-search keyword (`latest`) and an analysis keyword
(`analyze`), and the topic-domain group wins: the classification is
`query`. -/
theorem C7_classifier_witness :
    topicMatch "analyze the latest technology" = true ∧
    groupMatch webSearchKeywords "analyze the latest technology" = true ∧
    groupMatch analysisKeywords "analyze the latest technology" = true ∧
    classify_input_type "analyze the latest technology" = "query" :=
  ⟨by decide, by decide, by decide,
   (C7_classifier_priority "analyze the latest technology").1 (by decide)⟩

/-- C6: `process_search_query` is read-through on the `search_query:*`
cache.  On a miss for a non-empty query, the computed response is stored
under the query's key after issuing the 4 provider calls; calling again
for the same query while the entry is cached (within TTL) returns exactly
the stored response, leaves the cache unchanged, and issues zero provider
calls. -/
theorem C6_cache_read_through (yt rd gg nw : String → List RawItem)
    (summ : String → String) (gsvc : Option (String → Except Unit HFResponse))
    (cache : List (String × SearchResponse)) (q : String) (hq : q ≠ "")
    (hmiss : cache.lookup ("search_query:" ++ q) = none) :
    (process_search_query yt rd gg nw summ gsvc cache q).2.2 = 4 ∧
    (process_search_query yt rd gg nw summ gsvc cache q).2.1 =
      ("search_query:" ++ q, (process_search_query yt rd gg nw summ gsvc cache q).1)
        :: cache ∧
    process_search_query yt rd gg nw summ gsvc
        ((process_search_query yt rd gg nw summ gsvc cache q).2.1) q =
      ((process_search_query yt rd gg nw summ gsvc cache q).1,
       (process_search_query yt rd gg nw summ gsvc cache q).2.1, 0) := by
  obtain ⟨resp, hresp⟩ :
      ∃ resp, process_search_query yt rd gg nw summ gsvc cache q =
        (resp, ("search_query:" ++ q, resp) :: cache, 4) := by
    refine ⟨(process_search_query yt rd gg nw summ gsvc cache q).1, ?_⟩
    simp only [process_search_query, hmiss]
    simp [fetch_trending_topics, hq]
  refine ⟨by rw [hresp], by rw [hresp], ?_⟩
  rw [hresp]
  simp [process_search_query, List.lookup]

/-- Witness for `C6_cache_read_through` at a concrete query, empty cache
and concrete adapters. -/
theorem C6_cache_witness :
    (process_search_query (fun _ => []) (fun _ => []) (fun _ => [])
        (fun _ => []) (fun s => s) none [] "ev").2.2 = 4 ∧
    (process_search_query (fun _ => []) (fun _ => []) (fun _ => [])
        (fun _ => []) (fun s => s) none [] "ev").2.1 =
      ("search_query:" ++ "ev",
       (process_search_query (fun _ => []) (fun _ => []) (fun _ => [])
          (fun _ => []) (fun s => s) none [] "ev").1) :: [] ∧
    process_search_query (fun _ => []) (fun _ => []) (fun _ => [])
        (fun _ => []) (fun s => s) none
        ((process_search_query (fun _ => []) (fun _ => []) (fun _ => [])
            (fun _ => []) (fun s => s) none [] "ev").2.1) "ev" =
      ((process_search_query (fun _ => []) (fun _ => []) (fun _ => [])
          (fun _ => []) (fun s => s) none [] "ev").1,
       (process_search_query (fun _ => []) (fun _ => []) (fun _ => [])
          (fun _ => []) (fun s => s) none [] "ev").2.1, 0) :=
  C6_cache_read_through _ _ _ _ _ _ [] "ev" (by decide) rfl

/-- Stripping whitespace only removes characters: membership is
preserved downwards. -/
theorem mem_trimChars {c : Char} {l : List Char} (h : c ∈ trimChars l) : c ∈ l := by
  unfold trimChars at h
  rw [List.mem_reverse] at h
  have h1 := (List.dropWhile_suffix Char.isWhitespace).subset h
  rw [List.mem_reverse] at h1
  exact (List.dropWhile_suffix Char.isWhitespace).subset h1

/-- The head surviving `dropWhile p` fails `p`. -/
theorem head_dropWhile_false {α : Type} {p : α → Bool} {l : List α} {c : α}
    (h : (l.dropWhile p).head? = some c) : p c = false := by
  induction l with
  | nil => simp [List.dropWhile] at h
  | cons a t ih =>
    rw [List.dropWhile_cons] at h
    by_cases ha : p a = true
    · rw [if_pos ha] at h; exact ih h
    · rw [if_neg ha] at h
      simp at h
      cases hb : p a with
      | false => rw [← h]; exact hb
      | true => exact absurd hb ha

/-- The first character of a stripped list is not whitespace. -/
theorem head_trimChars_false {l : List Char} {c : Char}
    (h : (trimChars l).head? = some c) : c.isWhitespace = false := by
  unfold trimChars at h
  have hpre : ((((l.dropWhile Char.isWhitespace).reverse.dropWhile
      Char.isWhitespace)).reverse) <+: l.dropWhile Char.isWhitespace := by
    have hs := List.dropWhile_suffix (l := (l.dropWhile Char.isWhitespace).reverse)
      Char.isWhitespace
    have := hs.reverse
    rwa [List.reverse_reverse] at this
  obtain ⟨ts, hts⟩ := hpre
  cases hdr : (((l.dropWhile Char.isWhitespace).reverse.dropWhile
      Char.isWhitespace)).reverse with
  | nil => rw [hdr] at h; simp at h
  | cons d rest =>
    rw [hdr] at h hts
    simp at h
    have hy : (l.dropWhile Char.isWhitespace).head? = some c := by
      rw [← hts]
      simp [h]
    exact head_dropWhile_false hy

/-- The last character of a stripped list is not whitespace. -/
theorem getLast_trimChars_false {l : List Char} {c : Char}
    (h : (trimChars l).getLast? = some c) : c.isWhitespace = false := by
  unfold trimChars at h
  rw [List.getLast?_reverse] at h
  exact head_dropWhile_false h

/-- Filtering keeps a replicate of a kept character unchanged. -/
theorem filter_replicate_of_pos {α : Type} {p : α → Bool} {a : α} (hp : p a = true)
    (n : Nat) : (List.replicate n a).filter p = List.replicate n a := by
  induction n with
  | zero => rfl
  | succ m ih => rw [List.replicate_succ]; simp [List.filter_cons, hp, ih]

/-- `dropWhile` does not touch a replicate of a character failing the
predicate. -/
theorem dropWhile_replicate_of_neg {α : Type} {p : α → Bool} {a : α}
    (hp : p a = false) (n : Nat) :
    (List.replicate n a).dropWhile p = List.replicate n a := by
  cases n with
  | zero => rfl
  | succ m => rw [List.replicate_succ, List.dropWhile_cons, hp]; simp

/-- Stripping whitespace does not touch a replicate of a non-whitespace
character. -/
theorem trimChars_replicate {a : Char} (ha : a.isWhitespace = false) (n : Nat) :
    trimChars (List.replicate n a) = List.replicate n a := by
  unfold trimChars
  rw [dropWhile_replicate_of_neg ha, List.reverse_replicate,
    dropWhile_replicate_of_neg ha, List.reverse_replicate]

set_option maxRecDepth 20000 in
/-- C9 counterexample: the claim says `sanitize_input` returns only
alphanumeric characters and spaces, capped to a maximum length.  The
underscore (a `\w` character that is neither alphanumeric nor a space)
survives sanitization, and a 1000-character all-alphanumeric input passes
through at full length: no length cap exists in the code. -/
theorem C9_sanitize_counterexample :
    sanitize_input "a_b" = "a_b" ∧
    ('_'.isAlphanum || '_' == ' ') = false ∧
    (sanitize_input (String.mk (List.replicate 1000 'a'))).length = 1000 := by
  decide

/-- C9 amended: `sanitize_input` deletes every character that is neither
a word character (alphanumeric or underscore) nor whitespace and strips
leading/trailing whitespace: every output character is a word character
or (internal) whitespace, the first and last output characters are not
whitespace, no length cap is applied (an all-`a` input of any length `n`
passes through with length `n`), and the `/search` endpoint
(`search_trends`) hands exactly the sanitized query to
`process_search_query`, whose cache key is built from it. -/
theorem C9_sanitize_amended (q : String) (c : Char) (n : Nat)
    (hc : c ∈ (sanitize_input q).toList)
    (yt rd gg nw : String → List RawItem) (summ : String → String)
    (gsvc : Option (String → Except Unit HFResponse))
    (cache : List (String × SearchResponse)) (hq : q ≠ "") :
    (isWordChar c || c.isWhitespace) = true ∧
    ((sanitize_input q).toList.head?.all (fun x => !x.isWhitespace)) = true ∧
    ((sanitize_input q).toList.getLast?.all (fun x => !x.isWhitespace)) = true ∧
    (sanitize_input (String.mk (List.replicate n 'a'))).length = n ∧
    search_trends yt rd gg nw summ gsvc cache q =
      some (process_search_query yt rd gg nw summ gsvc cache (sanitize_input q)) := by
  have htl : (sanitize_input q).toList = trimChars (q.toList.filter keepChar) := by
    rw [sanitize_input, if_neg hq]
    rfl
  refine ⟨?_, ?_, ?_, ?_, ?_⟩
  · rw [htl] at hc
    have := List.mem_filter.mp (mem_trimChars hc)
    exact this.2
  · rw [htl]
    cases hh : (trimChars (q.toList.filter keepChar)).head? with
    | none => rfl
    | some d => simp [Option.all_some, head_trimChars_false hh]
  · rw [htl]
    cases hh : (trimChars (q.toList.filter keepChar)).getLast? with
    | none => rfl
    | some d => simp [Option.all_some, getLast_trimChars_false hh]
  · cases n with
    | zero => decide
    | succ m =>
      have hne : String.mk (List.replicate (m + 1) 'a') ≠ "" := by
        intro hcontra
        have := congrArg String.data hcontra
        simp [List.replicate_succ] at this
      rw [sanitize_input, if_neg hne]
      show (trimChars (((List.replicate (m + 1) 'a').filter keepChar))).length = m + 1
      rw [filter_replicate_of_pos (by decide) (m + 1),
        trimChars_replicate (by decide) (m + 1), List.length_replicate]
  · rw [search_trends, if_neg hq]

/-- Witness for `C9_sanitize_amended` at the concrete input `  a_b!  `
(which sanitizes to `a_b`), its surviving underscore, `n = 300`, and
concrete endpoint parameters. -/
theorem C9_sanitize_witness :
    (isWordChar '_' || '_'.isWhitespace) = true ∧
    ((sanitize_input "  a_b!  ").toList.head?.all (fun x => !x.isWhitespace)) = true ∧
    ((sanitize_input "  a_b!  ").toList.getLast?.all (fun x => !x.isWhitespace)) = true ∧
    (sanitize_input (String.mk (List.replicate 300 'a'))).length = 300 ∧
    search_trends (fun _ => []) (fun _ => []) (fun _ => []) (fun _ => [])
        (fun s => s) none [] "  a_b!  " =
      some (process_search_query (fun _ => []) (fun _ => []) (fun _ => [])
        (fun _ => []) (fun s => s) none [] (sanitize_input "  a_b!  ")) :=
  C9_sanitize_amended "  a_b!  " '_' 300 (by decide) _ _ _ _ _ _ _ (by decide)

end Kachifo
